import Mathlib

/-!
# A verification model of the `WebGLProfiler` class (webgl-profiler)

This file gives a shallow embedding of the profiler's core: the context
stack (`pushContext` / `popContext`), the measurement multiplexer
(`markAction`, `start`, `stop`), the resolution pipeline
(`resolveEventsIfPossible`) and the speedscope exporter
(`toSpeedscopeProfile`), together with theorems about them.

Modelling conventions:
* JavaScript exceptions mutate the receiver in place and then propagate, so
  every operation returns `WebGLProfiler × Option ProfilerError`: the state
  component is the object's state at normal return *or at the point of
  throw*, and the second component records a raised error.
* WebGL query handles (`createQueryEXT`) are modelled by a fresh-id counter
  `nextQueryId`; a handle is a `Nat`.
* The GL side (`getQueryObjectEXT`, `getParameter(GPU_DISJOINT_EXT)`) is an
  environment `GLEnv` of pure functions of the query id being processed
  (the disjoint flag is an ambient value sampled while resolving a given
  query, so indexing it by that query id renders one deterministic
  schedule of its readings).
* Timestamps and elapsed durations are `Int` (JS numbers used only through
  `+` and comparison here); non-negativity of GPU durations appears as an
  explicit hypothesis where a claim needs it.
* The JS array `namedContextStack` pushes and pops at the *end*; we model
  the stack as a list whose *head* is the top, so `push` is cons and `pop`
  inspects the head.
-/

/-- The error cases the source throws (`throw new Error(...)`), tagged by
the spec's taxonomy names. -/
inductive ProfilerError where
  /-- "EXT_disjoint_timer_query WebGL extension is not available." -/
  | unsupported : ProfilerError
  /-- "Profiler is already running" -/
  | invalidStateAlreadyRunning : ProfilerError
  /-- "Profiler is already stopped" -/
  | invalidStateAlreadyStopped : ProfilerError
  /-- "... cards seem to have a buggy implementation ..." -/
  | unsupportedHardware : ProfilerError
  /-- "Tried to pop a context when the context stack is empty!" -/
  | protocolEmptyStack : ProfilerError
  /-- "Expected popContext to be called with {popped}, but it was called
  with {name}" -/
  | protocolNameMismatch (expected got : String) : ProfilerError
  /-- "Cannot mark actions while no profile is active" -/
  | protocolNoActiveProfile : ProfilerError
  /-- "GPU_DISJOINT_EXT" -/
  | unreliableTiming : ProfilerError
  /-- "Profile is empty" -/
  | emptyProfile : ProfilerError
deriving DecidableEq, Repr

/-- `enum GPUProfilerActionType` -/
inductive GPUProfilerActionType where
  | OPEN_FRAME : GPUProfilerActionType
  | CLOSE_FRAME : GPUProfilerActionType
deriving DecidableEq, Repr

/-- `interface GPUProfilerAction` -/
structure GPUProfilerAction where
  type : GPUProfilerActionType
  name : String
deriving DecidableEq, Repr

/-- `interface GPUProfilerEventPendingTimestamp`; the query handle is a
`Nat` id. -/
structure GPUProfilerEventPendingTimestamp where
  action : GPUProfilerAction
  query : Nat
deriving DecidableEq, Repr

/-- `interface GPUProfilerResolvedEvent` -/
structure GPUProfilerResolvedEvent where
  action : GPUProfilerAction
  timestamp : Int
deriving DecidableEq, Repr

/-- The mutable fields of `class WebGLProfiler`, plus the two facts about
the ambient `WebGLRenderingContext` that the code branches on: whether
`getExtension("EXT_disjoint_timer_query")` returned non-null
(`extAvailable`), and the `UNMASKED_RENDERER_WEBGL` string when
`WEBGL_debug_renderer_info` is available (`rendererInfo`). -/
structure WebGLProfiler where
  extAvailable : Bool
  rendererInfo : Option String
  activeQuery : Option Nat
  isRunning : Bool
  nextQueryId : Nat
  eventsPendingTimestamps : List GPUProfilerEventPendingTimestamp
  resolvedEvents : List GPUProfilerResolvedEvent
  namedContextStack : List String

/-- The state right after `new WebGLProfiler(context)`. -/
def WebGLProfiler.mk0 (extAvailable : Bool) (rendererInfo : Option String) :
    WebGLProfiler :=
  { extAvailable := extAvailable
    rendererInfo := rendererInfo
    activeQuery := none
    isRunning := false
    nextQueryId := 0
    eventsPendingTimestamps := []
    resolvedEvents := []
    namedContextStack := [] }

/-- The GL responses consumed by `resolveEventsIfPossible`, as pure
functions of the query id being processed. -/
structure GLEnv where
  /-- `getQueryObjectEXT(query, QUERY_RESULT_AVAILABLE_EXT)` -/
  available : Nat → Bool
  /-- `getParameter(GPU_DISJOINT_EXT)` as sampled while resolving `query` -/
  disjoint : Nat → Bool
  /-- `getQueryObjectEXT(query, QUERY_RESULT_EXT)` -/
  result : Nat → Int

/-- An operation paired with a possibly-raised error; the state component
is the object state at normal return or at the throw point. -/
abbrev ProfilerStep := WebGLProfiler × Option ProfilerError

namespace WebGLProfiler

/-- `isProfilerRunning()` -/
def isProfilerRunning (s : WebGLProfiler) : Bool :=
  s.isRunning

/-- `renderer.indexOf("NVIDIA GeForce GT 750M") !== -1` (substring test). -/
def isDenylistedRenderer (renderer : String) : Bool :=
  (renderer.splitOn "NVIDIA GeForce GT 750M").length != 1

/-- `markAction(action)`: silent early return when the extension is null;
throws when no query is active; otherwise swaps the active query for a
fresh one and enqueues `{action, oldQuery}`. -/
def markAction (a : GPUProfilerAction) (s : WebGLProfiler) : ProfilerStep :=
  if s.extAvailable = false then
    (s, none)
  else
    match s.activeQuery with
    | none => (s, some .protocolNoActiveProfile)
    | some oldQuery =>
        ({ s with
            activeQuery := some s.nextQueryId
            nextQueryId := s.nextQueryId + 1
            eventsPendingTimestamps :=
              s.eventsPendingTimestamps ++ [⟨a, oldQuery⟩] },
         none)

/-- `pushContext(name)`: markAction(OPEN_FRAME), then push onto the
context stack (skipped if markAction threw). -/
def pushContext (name : String) (s : WebGLProfiler) : ProfilerStep :=
  match markAction ⟨.OPEN_FRAME, name⟩ s with
  | (s1, some e) => (s1, some e)
  | (s1, none) =>
      ({ s1 with namedContextStack := name :: s1.namedContextStack }, none)

/-- `popContext(name)`: throws on an empty stack; otherwise *pops first*
(the source's `this.namedContextStack.pop()` mutates before the check) and
then throws on a name mismatch, else marks CLOSE_FRAME. -/
def popContext (name : String) (s : WebGLProfiler) : ProfilerStep :=
  match s.namedContextStack with
  | [] => (s, some .protocolEmptyStack)
  | popped :: rest =>
      let s1 := { s with namedContextStack := rest }
      if popped ≠ name then
        (s1, some (.protocolNameMismatch popped name))
      else
        markAction ⟨.CLOSE_FRAME, name⟩ s1

/-- `start()`: extension / already-running / denylisted-renderer guards,
then reset state, create and begin the first query, and push the root
`"profile"` context. -/
def start (s : WebGLProfiler) : ProfilerStep :=
  if s.extAvailable = false then
    (s, some .unsupported)
  else if s.isRunning then
    (s, some .invalidStateAlreadyRunning)
  else
    match s.rendererInfo with
    | some renderer =>
        if isDenylistedRenderer renderer then
          (s, some .unsupportedHardware)
        else
          pushContext "profile"
            { s with
                isRunning := true
                eventsPendingTimestamps := []
                resolvedEvents := []
                activeQuery := some s.nextQueryId
                nextQueryId := s.nextQueryId + 1 }
    | none =>
        pushContext "profile"
          { s with
              isRunning := true
              eventsPendingTimestamps := []
              resolvedEvents := []
              activeQuery := some s.nextQueryId
              nextQueryId := s.nextQueryId + 1 }

/-- `stop()`: silent return when the extension is null; throws when not
running; else clears `isRunning`, pops the root context, and clears the
active query (the source's `endQueryEXT` is GL-side only). -/
def stop (s : WebGLProfiler) : ProfilerStep :=
  if s.extAvailable = false then
    (s, none)
  else if s.isRunning = false then
    (s, some .invalidStateAlreadyStopped)
  else
    match popContext "profile" { s with isRunning := false } with
    | (s1, some e) => (s1, some e)
    | (s1, none) => ({ s1 with activeQuery := none }, none)

/-- `this.resolvedEvents.length === 0 ? 0 : last.timestamp`. -/
def lastTimestampOf (l : List GPUProfilerResolvedEvent) : Int :=
  match l.getLast? with
  | none => 0
  | some r => r.timestamp

/-- The loop body of `resolveEventsIfPossible`: walk the pending list from
the front, stopping at the first unavailable result, throwing on the
disjoint flag, otherwise appending `{action, lastTimestamp + elapsed}` to
the resolved list. Returns the grown resolved list, the count `i` of
entries consumed, and the raised error if any. -/
def resolveLoop (env : GLEnv) :
    List GPUProfilerEventPendingTimestamp → List GPUProfilerResolvedEvent →
      List GPUProfilerResolvedEvent × Nat × Option ProfilerError
  | [], resolved => (resolved, 0, none)
  | p :: rest, resolved =>
      if env.available p.query = false then
        (resolved, 0, none)
      else if env.disjoint p.query then
        (resolved, 0, some .unreliableTiming)
      else
        let elapsed := env.result p.query
        let step := resolveLoop env rest
          (resolved ++ [⟨p.action, lastTimestampOf resolved + elapsed⟩])
        (step.1, step.2.1 + 1, step.2.2)

/-- `resolveEventsIfPossible()`: silent return when the extension is null;
otherwise run the walk. On normal return the consumed entries are sliced
off the pending queue; on a throw the slice at the end of the walk is
*never executed*, so the pending queue is left untouched while the
resolved list keeps the entries appended before the throw. -/
def resolveEventsIfPossible (env : GLEnv) (s : WebGLProfiler) : ProfilerStep :=
  if s.extAvailable = false then
    (s, none)
  else
    match resolveLoop env s.eventsPendingTimestamps s.resolvedEvents with
    | (resolved, _, some e) =>
        ({ s with resolvedEvents := resolved }, some e)
    | (resolved, i, none) =>
        if 0 < i then
          ({ s with
              resolvedEvents := resolved
              eventsPendingTimestamps := s.eventsPendingTimestamps.drop i },
           none)
        else
          ({ s with resolvedEvents := resolved }, none)

end WebGLProfiler

/-- `enum SpeedscopeEventType` (`'O'` / `'C'`). -/
inductive SpeedscopeEventType where
  | OPEN_FRAME : SpeedscopeEventType
  | CLOSE_FRAME : SpeedscopeEventType
deriving DecidableEq, Repr

/-- One entry of the exported `events` array: type, frame index, `at`. -/
structure SpeedscopeEvent where
  type : SpeedscopeEventType
  frame : Nat
  /-- the `at` field of the JSON record (`at` is a Lean keyword) -/
  atVal : Int
deriving DecidableEq, Repr

/-- The bit-relevant content of the exported speedscope document: the
interned frame-name table and the single evented profile's fields. -/
structure SpeedscopeFile where
  frames : List String
  startValue : Int
  endValue : Int
  events : List SpeedscopeEvent
deriving DecidableEq, Repr

namespace WebGLProfiler

/-- `getOrInsertFrame(name)` over the interning state: the index of `name`
in `frames`, inserting it at the end when absent. -/
def getOrInsertFrame (name : String) (frames : List String) :
    Nat × List String :=
  if name ∈ frames then (frames.indexOf name, frames)
  else (frames.length, frames ++ [name])

/-- The exporter's event loop: fold over the resolved events, interning
each action's name and emitting one open/close record per event. -/
def internEvents :
    List GPUProfilerResolvedEvent → List String →
      List String × List SpeedscopeEvent
  | [], frames => (frames, [])
  | e :: rest, frames =>
      let fr := getOrInsertFrame e.action.name frames
      let tail := internEvents rest fr.2
      (tail.1,
        ⟨(if e.action.type = .OPEN_FRAME then .OPEN_FRAME else .CLOSE_FRAME),
          fr.1, e.timestamp⟩ :: tail.2)

/-- `toSpeedscopeProfile()`: throws on an empty resolved list; else emits
`startValue = 0`, `endValue` = the last resolved timestamp, the interned
frame table and the event list. -/
def toSpeedscopeProfile (s : WebGLProfiler) : Except ProfilerError SpeedscopeFile :=
  match s.resolvedEvents.getLast? with
  | none => .error .emptyProfile
  | some lastEv =>
      let built := internEvents s.resolvedEvents []
      .ok { frames := built.1
            startValue := 0
            endValue := lastEv.timestamp
            events := built.2 }

/-- `exportSpeedscopeProfile()` under a time-invariant `GLEnv`: the source
repeats `resolveEventsIfPossible` (yielding to `requestAnimationFrame`
between rounds) until the pending queue is empty, then converts. With a
fixed environment a second round consumes nothing more, so the loop either
reaches an empty queue after one call, throws, or spins forever; `none`
renders the non-terminating case. -/
def exportSpeedscopeProfile (env : GLEnv) (s : WebGLProfiler) :
    Option (WebGLProfiler × Except ProfilerError SpeedscopeFile) :=
  match resolveEventsIfPossible env s with
  | (s1, some e) => some (s1, .error e)
  | (s1, none) =>
      if s1.eventsPendingTimestamps.isEmpty then
        some (s1, toSpeedscopeProfile s1)
      else
        none

end WebGLProfiler

/-! ## Client call sequences

A client between `start()` and `stop()` issues `pushContext`/`popContext`
calls; `withContext` is their composition. `runOps` runs such a sequence,
stopping at the first raised error (an uncaught JS exception aborts the
callers). -/

/-- One client call between start and stop. -/
inductive ProfilerOp where
  | push : String → ProfilerOp
  | pop : String → ProfilerOp
deriving DecidableEq, Repr

/-- The single action that a successful `pushContext`/`popContext` call
forwards into the pending queue. -/
def ProfilerOp.action : ProfilerOp → GPUProfilerAction
  | .push n => ⟨.OPEN_FRAME, n⟩
  | .pop n => ⟨.CLOSE_FRAME, n⟩

namespace WebGLProfiler

/-- Run one client call. -/
def runOp (op : ProfilerOp) (s : WebGLProfiler) : ProfilerStep :=
  match op with
  | .push n => pushContext n s
  | .pop n => popContext n s

/-- Run a sequence of client calls, stopping at the first raised error. -/
def runOps (ops : List ProfilerOp) (s : WebGLProfiler) : ProfilerStep :=
  match ops with
  | [] => (s, none)
  | op :: rest =>
      match runOp op s with
      | (s1, some e) => (s1, some e)
      | (s1, none) => runOps rest s1

/-- `withContext(name, body)` where the body issues the calls `body`:
push, body, pop. -/
def withContext (name : String) (body : List ProfilerOp) (s : WebGLProfiler) :
    ProfilerStep :=
  runOps (.push name :: body ++ [.pop name]) s

/-- A whole profiling session: `start()`, the client's calls, `stop()`. -/
def session (ops : List ProfilerOp) (s : WebGLProfiler) : ProfilerStep :=
  match start s with
  | (s1, some e) => (s1, some e)
  | (s1, none) =>
      match runOps ops s1 with
      | (s2, some e) => (s2, some e)
      | (s2, none) => stop s2

end WebGLProfiler

/-! ## Well-nestedness and balance -/

/-- Well-nested (Dyck) call sequences: each `pop` carries the name of the
matching `push` and the pairs are properly nested. -/
inductive WellNested : List ProfilerOp → Prop where
  | nil : WellNested []
  | wrap (name : String) {inner : List ProfilerOp} (h : WellNested inner) :
      WellNested (.push name :: inner ++ [.pop name])
  | append {a b : List ProfilerOp} (ha : WellNested a) (hb : WellNested b) :
      WellNested (a ++ b)

/-- Stack checker for balance of an exported event list by frame index:
an `O` pushes its frame, a `C` must match the top. `checkBalanced es []`
decides that `es` is balanced and LIFO-nested. -/
def checkBalanced : List SpeedscopeEvent → List Nat → Bool
  | [], stack => stack.isEmpty
  | e :: rest, stack =>
      match e.type with
      | .OPEN_FRAME => checkBalanced rest (e.frame :: stack)
      | .CLOSE_FRAME =>
          match stack with
          | [] => false
          | f :: stack1 => f == e.frame && checkBalanced rest stack1

/-- The same stack checker at the level of actions (by interval name). -/
def checkBalActs : List GPUProfilerAction → List String → Bool
  | [], stack => stack.isEmpty
  | a :: rest, stack =>
      match a.type with
      | .OPEN_FRAME => checkBalActs rest (a.name :: stack)
      | .CLOSE_FRAME =>
          match stack with
          | [] => false
          | n :: stack1 => n == a.name && checkBalActs rest stack1

/-! ## Further definitions used by the theorems -/

namespace WebGLProfiler

/-- Accumulate resolved events from a base timestamp: each entry's
timestamp is the previous one (the base for the first) plus its elapsed
duration. This transcribes the spec's §4.3 timestamp rule
`timestamp = lastResolvedTimestamp (or 0) + elapsed`. -/
def accumFrom (env : GLEnv) (base : Int) :
    List GPUProfilerEventPendingTimestamp → List GPUProfilerResolvedEvent
  | [] => []
  | p :: rest =>
      ⟨p.action, base + env.result p.query⟩ ::
        accumFrom env (base + env.result p.query) rest

/-- The spec's §4.3 description of `drainAvailable()` (in the absence of a
disjoint condition), written from the spec's words for comparison with
`resolveEventsIfPossible`: resolve exactly the maximal available front of
the pending queue in FIFO order, timestamping by running accumulation from
the last resolved timestamp (0 if none), and remove the consumed entries. -/
def drainAvailableSpec (env : GLEnv) (s : WebGLProfiler) : WebGLProfiler :=
  let consumed := s.eventsPendingTimestamps.takeWhile fun p => env.available p.query
  { s with
      resolvedEvents :=
        s.resolvedEvents ++ accumFrom env (lastTimestampOf s.resolvedEvents) consumed
      eventsPendingTimestamps := s.eventsPendingTimestamps.drop consumed.length }

/-- The claimed representation invariant: the profiler reports running
exactly when a measurement handle is active. -/
def RunningInv (s : WebGLProfiler) : Prop :=
  s.isRunning = true ↔ s.activeQuery ≠ none

/-- The exporter's translation of action types to speedscope event types. -/
def actionTypeToSpeedscope : GPUProfilerActionType → SpeedscopeEventType
  | .OPEN_FRAME => .OPEN_FRAME
  | .CLOSE_FRAME => .CLOSE_FRAME

end WebGLProfiler

/-! ## Concrete fixtures for counterexamples and witnesses -/

/-- A profiler with the extension available, no debug-renderer info, and
the context stack holding just `"a"`. -/
def stackA : WebGLProfiler :=
  { WebGLProfiler.mk0 true none with namedContextStack := ["a"] }

/-- A profiler whose rendering context lacks the timer-query extension. -/
def noExt : WebGLProfiler :=
  WebGLProfiler.mk0 false none

/-- A profiler with two enqueued pending measurements (queries 0 and 1). -/
def twoPending : WebGLProfiler :=
  { WebGLProfiler.mk0 true none with
      eventsPendingTimestamps :=
        [⟨⟨.OPEN_FRAME, "x"⟩, 0⟩, ⟨⟨.OPEN_FRAME, "y"⟩, 1⟩] }

/-- A profiler with three enqueued pending measurements (queries 0-2). -/
def threePending : WebGLProfiler :=
  { WebGLProfiler.mk0 true none with
      eventsPendingTimestamps :=
        [⟨⟨.OPEN_FRAME, "x"⟩, 0⟩, ⟨⟨.OPEN_FRAME, "y"⟩, 1⟩,
         ⟨⟨.CLOSE_FRAME, "y"⟩, 2⟩] }

/-- All results available with duration 1, never disjoint. -/
def envOnes : GLEnv :=
  ⟨fun _ => true, fun _ => false, fun _ => 1⟩

/-- All results available, disjoint flag observed true only while
resolving query 1. -/
def envDisjAt1 : GLEnv :=
  ⟨fun _ => true, fun q => q == 1, fun _ => 5⟩

/-- All results available, disjoint flag observed true only while
resolving query 2. -/
def envDisjAt2 : GLEnv :=
  ⟨fun _ => true, fun q => q == 2, fun _ => 5⟩

/-- The profiler state after `start(); pushContext("a"); popContext("a");
stop()` from a fresh extension-available context. -/
def sessionA : WebGLProfiler :=
  (WebGLProfiler.session [.push "a", .pop "a"] (WebGLProfiler.mk0 true none)).1

/-! ## Theorems -/

open WebGLProfiler

/-- C2 counterexample: popping `"b"` when the stack is `["a"]` raises the
name-mismatch `ProtocolError`, but the stack is *not* left as it was —
the top element `"a"` has been removed (the source pops before it checks
the name). -/
theorem C2_counterexample :
    (stackA.popContext "b").2 =
        some (ProfilerError.protocolNameMismatch "a" "b") ∧
      stackA.namedContextStack = ["a"] ∧
      (stackA.popContext "b").1.namedContextStack = [] := by
  decide

/-- C2 (amended): `popContext(name)` on an empty stack fails with
`ProtocolError` leaving the state unchanged; when the top of the stack is
not exactly `name` it fails with `ProtocolError`, but only after the top
element has already been removed from the context stack. -/
theorem C2_popContext_error_behavior (name : String) (s : WebGLProfiler) :
    (s.namedContextStack = [] →
      s.popContext name = (s, some ProfilerError.protocolEmptyStack)) ∧
    ∀ top rest, s.namedContextStack = top :: rest → top ≠ name →
      s.popContext name =
        ({ s with namedContextStack := rest },
         some (ProfilerError.protocolNameMismatch top name)) := by
  constructor
  · intro h
    simp [WebGLProfiler.popContext, h]
  · intro top rest h hne
    simp [WebGLProfiler.popContext, h, hne]

/-- C2 witness: the amended theorem evaluated on the `["a"]` stack. -/
theorem C2_witness :
    stackA.popContext "b" =
      ({ stackA with namedContextStack := [] },
       some (ProfilerError.protocolNameMismatch "a" "b")) :=
  (C2_popContext_error_behavior "b" stackA).2 "a" [] rfl (by decide)

/-- C7: `start()` fails with the unsupported-extension error when the
extension is absent, with the already-running error when running, and with
the unsupported-hardware error on a denylisted renderer — each time
returning the state unchanged, so no query is created (`nextQueryId` is
untouched) and no measurement begins; and a successful `start()` makes an
immediately following `start()` fail with the already-running error. -/
theorem C7_start_guards (s : WebGLProfiler) :
    (s.extAvailable = false → s.start = (s, some ProfilerError.unsupported)) ∧
    (s.extAvailable = true → s.isRunning = true →
      s.start = (s, some ProfilerError.invalidStateAlreadyRunning)) ∧
    (∀ r, s.extAvailable = true → s.isRunning = false →
      s.rendererInfo = some r → isDenylistedRenderer r = true →
      s.start = (s, some ProfilerError.unsupportedHardware)) ∧
    (∀ s1, s.start = (s1, none) →
      s1.start = (s1, some ProfilerError.invalidStateAlreadyRunning)) := by
  refine ⟨?_, ?_, ?_, ?_⟩
  · intro h
    simp [WebGLProfiler.start, h]
  · intro h1 h2
    simp [WebGLProfiler.start, h1, h2]
  · intro r h1 h2 h3 h4
    simp [WebGLProfiler.start, h1, h2, h3, h4]
  · intro s1 h
    cases hext : s.extAvailable with
    | false => simp [WebGLProfiler.start, hext] at h
    | true =>
      cases hrun : s.isRunning with
      | true => simp [WebGLProfiler.start, hext, hrun] at h
      | false =>
        cases hri : s.rendererInfo with
        | none =>
          simp [WebGLProfiler.start, hext, hrun, hri, WebGLProfiler.pushContext,
            WebGLProfiler.markAction] at h
          rw [← h]
          simp [WebGLProfiler.start]
        | some r =>
          cases hdl : isDenylistedRenderer r with
          | true => simp [WebGLProfiler.start, hext, hrun, hri, hdl] at h
          | false =>
            simp [WebGLProfiler.start, hext, hrun, hri, hdl,
              WebGLProfiler.pushContext, WebGLProfiler.markAction] at h
            rw [← h]
            simp [WebGLProfiler.start]

/-- C7 witness: the guards evaluated concretely — a missing extension
refuses to start, and a successful fresh start refuses to start again. -/
theorem C7_witness :
    noExt.start = (noExt, some ProfilerError.unsupported) ∧
    ((WebGLProfiler.mk0 true none).start.1.start =
      ((WebGLProfiler.mk0 true none).start.1,
       some ProfilerError.invalidStateAlreadyRunning)) :=
  ⟨(C7_start_guards noExt).1 rfl,
   (C7_start_guards (WebGLProfiler.mk0 true none)).2.2.2 _ rfl⟩

/-- C8 counterexample: with the extension unavailable, `markAction` (and
hence `pushContext`) on a profiler with no active measurement raises
nothing — `markAction` silently no-ops and `pushContext` still pushes onto
the context stack; moreover with the extension available, `popContext` in
such a state does raise, but only after removing the stack top. -/
theorem C8_counterexample :
    noExt.activeQuery = none ∧
    (WebGLProfiler.markAction ⟨.OPEN_FRAME, "a"⟩ noExt).2 = none ∧
    (noExt.pushContext "a").2 = none ∧
    (noExt.pushContext "a").1.namedContextStack = ["a"] ∧
    stackA.activeQuery = none ∧
    (stackA.popContext "a").2 = some ProfilerError.protocolNoActiveProfile ∧
    (stackA.popContext "a").1.namedContextStack = [] := by
  decide

/-- C8 (amended): when the extension is available and no measurement is
active, `markAction` fails with `ProtocolError` leaving the state
unchanged; `pushContext` then raises without mutating anything, and
`popContext` raises without forwarding an action into the pending queue
(though its stack checks may already have removed the stack top). When the
extension is unavailable, `markAction` is a silent no-op instead. -/
theorem C8_markAction_requires_active (a : GPUProfilerAction) (name : String)
    (s : WebGLProfiler) :
    (s.extAvailable = true → s.activeQuery = none →
      WebGLProfiler.markAction a s =
          (s, some ProfilerError.protocolNoActiveProfile) ∧
        s.pushContext name = (s, some ProfilerError.protocolNoActiveProfile) ∧
        (s.popContext name).2 ≠ none ∧
        (s.popContext name).1.eventsPendingTimestamps =
          s.eventsPendingTimestamps) ∧
    (s.extAvailable = false → WebGLProfiler.markAction a s = (s, none)) := by
  constructor
  · intro hext hq
    refine ⟨?_, ?_, ?_⟩
    · simp [WebGLProfiler.markAction, hext, hq]
    · simp [WebGLProfiler.pushContext, WebGLProfiler.markAction, hext, hq]
    · cases hst : s.namedContextStack with
      | nil => simp [WebGLProfiler.popContext, hst]
      | cons top rest =>
        by_cases hne : top = name
        · simp [WebGLProfiler.popContext, hst, hne,
            WebGLProfiler.markAction, hext, hq]
        · simp [WebGLProfiler.popContext, hst, hne]
  · intro hext
    simp [WebGLProfiler.markAction, hext]

/-- C8 witness: the amended theorem evaluated on a fresh
extension-available profiler before `start()`. -/
theorem C8_witness :
    WebGLProfiler.markAction ⟨.OPEN_FRAME, "a"⟩ (WebGLProfiler.mk0 true none) =
      (WebGLProfiler.mk0 true none, some ProfilerError.protocolNoActiveProfile) :=
  ((C8_markAction_requires_active ⟨.OPEN_FRAME, "a"⟩ "a"
      (WebGLProfiler.mk0 true none)).1 rfl rfl).1

/-! ### Resolution pipeline lemmas -/

theorem accumFrom_map_action (env : GLEnv) :
    ∀ (base : Int) (l : List GPUProfilerEventPendingTimestamp),
      (accumFrom env base l).map (·.action) = l.map (·.action) := by
  intro base l
  induction l generalizing base with
  | nil => rfl
  | cons p rest ih => simp [accumFrom, ih]

theorem lastTimestampOf_concat (l : List GPUProfilerResolvedEvent)
    (x : GPUProfilerResolvedEvent) :
    lastTimestampOf (l ++ [x]) = x.timestamp := by
  simp [lastTimestampOf, List.getLast?_concat]

/-- What one walk of the pending queue produces: the grown resolved list
is the old one extended by the accumulation of exactly the first
`count` pending entries, and `count` never exceeds the queue length. -/
theorem resolveLoop_characterization (env : GLEnv) :
    ∀ (pending : List GPUProfilerEventPendingTimestamp)
      (resolved : List GPUProfilerResolvedEvent),
      (resolveLoop env pending resolved).1 =
          resolved ++ accumFrom env (lastTimestampOf resolved)
            (pending.take (resolveLoop env pending resolved).2.1) ∧
        (resolveLoop env pending resolved).2.1 ≤ pending.length := by
  intro pending
  induction pending with
  | nil =>
    intro resolved
    simp [resolveLoop, accumFrom]
  | cons p rest ih =>
    intro resolved
    cases hav : env.available p.query with
    | false => simp [resolveLoop, hav, accumFrom]
    | true =>
      cases hd : env.disjoint p.query with
      | true => simp [resolveLoop, hav, hd, accumFrom]
      | false =>
        have ih1 := ih (resolved ++ [⟨p.action,
          lastTimestampOf resolved + env.result p.query⟩])
        constructor
        · simp only [resolveLoop, hav, hd, Bool.true_eq_false, if_false,
            Bool.false_eq_true]
          rw [ih1.1, lastTimestampOf_concat, List.take_succ_cons]
          simp [accumFrom, List.append_assoc]
        · simp only [resolveLoop, hav, hd, Bool.true_eq_false, if_false,
            Bool.false_eq_true, List.length_cons]
          omega

/-- When no disjoint condition is ever observed, the walk consumes exactly
the maximal available front of the queue and raises nothing. -/
theorem resolveLoop_no_disjoint (env : GLEnv)
    (hd : ∀ q, env.disjoint q = false) :
    ∀ (pending : List GPUProfilerEventPendingTimestamp)
      (resolved : List GPUProfilerResolvedEvent),
      resolveLoop env pending resolved =
        (resolved ++ accumFrom env (lastTimestampOf resolved)
            (pending.takeWhile fun p => env.available p.query),
         (pending.takeWhile fun p => env.available p.query).length,
         none) := by
  intro pending
  induction pending with
  | nil =>
    intro resolved
    simp [resolveLoop, accumFrom]
  | cons p rest ih =>
    intro resolved
    cases hav : env.available p.query with
    | false => simp [resolveLoop, hav, accumFrom, List.takeWhile]
    | true =>
      have ih1 := ih (resolved ++ [⟨p.action,
        lastTimestampOf resolved + env.result p.query⟩])
      simp only [resolveLoop, hav, hd p.query, Bool.true_eq_false, if_false,
        Bool.false_eq_true]
      rw [ih1, lastTimestampOf_concat]
      simp [List.takeWhile, hav, accumFrom, List.append_assoc]

/-- When the walk raises, the pending queue is left untouched. -/
theorem resolveEventsIfPossible_error_pending (env : GLEnv) (s : WebGLProfiler)
    (h : (resolveEventsIfPossible env s).2 ≠ none) :
    (resolveEventsIfPossible env s).1.eventsPendingTimestamps =
      s.eventsPendingTimestamps := by
  by_cases hext : s.extAvailable = false
  · simp [resolveEventsIfPossible, hext]
  · simp only [resolveEventsIfPossible, hext, if_false] at h ⊢
    rcases hr : resolveLoop env s.eventsPendingTimestamps s.resolvedEvents with
      ⟨res, k, err⟩
    cases err with
    | some e => simp [hr]
    | none =>
      rw [hr] at h
      by_cases hk : 0 < k
      · simp [hk] at h
      · simp [hk] at h

/-- C4: with the extension present and no disjoint condition,
`resolveEventsIfPossible` behaves exactly as the spec describes
`drainAvailable()`: it resolves the maximal available front of the pending
queue in FIFO order (never skipping an unavailable entry), timestamps each
entry by `lastResolvedTimestamp (or 0) + elapsed`, removes exactly the
consumed entries, and raises nothing; and on an empty pending queue any
call is a no-op that returns the state unchanged. -/
theorem C4_resolve_matches_drainAvailableSpec (env : GLEnv) (s : WebGLProfiler) :
    (s.extAvailable = true → (∀ q, env.disjoint q = false) →
      resolveEventsIfPossible env s = (drainAvailableSpec env s, none)) ∧
    (s.eventsPendingTimestamps = [] →
      resolveEventsIfPossible env s = (s, none)) := by
  rcases s with ⟨e1, e2, e3, e4, e5, e6, e7, e8⟩
  constructor
  · intro hext hd
    simp only at hext
    subst hext
    simp only [resolveEventsIfPossible, Bool.true_eq_false, if_false]
    rw [resolveLoop_no_disjoint env hd]
    by_cases hk : 0 < (e6.takeWhile fun p => env.available p.query).length
    · simp [hk, drainAvailableSpec]
    · have h0 : (e6.takeWhile fun p => env.available p.query) = [] := by
        cases h : e6.takeWhile fun p => env.available p.query
        · rfl
        · rw [h] at hk
          simp at hk
      simp [hk, h0, drainAvailableSpec, accumFrom]
  · intro hp
    simp only at hp
    subst hp
    cases e1 with
    | false => rfl
    | true => rfl

/-- C4 witness: the drain evaluated on two available pending entries, and
the no-op evaluated on a fresh profiler. -/
theorem C4_witness :
    resolveEventsIfPossible envOnes twoPending =
        (drainAvailableSpec envOnes twoPending, none) ∧
      resolveEventsIfPossible envOnes (WebGLProfiler.mk0 true none) =
        (WebGLProfiler.mk0 true none, none) :=
  ⟨(C4_resolve_matches_drainAvailableSpec envOnes twoPending).1 rfl fun _ => rfl,
   (C4_resolve_matches_drainAvailableSpec envOnes (WebGLProfiler.mk0 true none)).2 rfl⟩

/-- C3 counterexample: with two available pending measurements and the
disjoint flag observed while resolving the second, the call raises, the
first entry's event has been appended to the resolved list, and yet the
pending queue still contains both entries — the consumed first action
`OPEN_FRAME "x"` is represented in both lists after the call. -/
theorem C3_counterexample :
    (resolveEventsIfPossible envDisjAt1 twoPending).2 =
        some ProfilerError.unreliableTiming ∧
      (resolveEventsIfPossible envDisjAt1 twoPending).1.resolvedEvents.map
          (·.action) = [⟨.OPEN_FRAME, "x"⟩] ∧
      (resolveEventsIfPossible envDisjAt1 twoPending).1.eventsPendingTimestamps.map
          (·.action) = [⟨.OPEN_FRAME, "x"⟩, ⟨.OPEN_FRAME, "y"⟩] := by
  decide

/-- C3 (amended): when `resolveEventsIfPossible` returns normally it
removes from the pending queue exactly the entries it consumed — the old
queue splits into a consumed front whose actions were appended to the
resolved list and an untouched remainder, so no action is represented in
both lists. When it raises, however, the pending queue is left entirely
untouched even though the entries consumed before the error already had
their events appended to the resolved list. -/
theorem C3_consumed_removed (env : GLEnv) (s : WebGLProfiler) :
    ((resolveEventsIfPossible env s).2 = none →
      ∃ k, k ≤ s.eventsPendingTimestamps.length ∧
        (resolveEventsIfPossible env s).1.eventsPendingTimestamps =
          s.eventsPendingTimestamps.drop k ∧
        (resolveEventsIfPossible env s).1.resolvedEvents.map (·.action) =
          s.resolvedEvents.map (·.action) ++
            (s.eventsPendingTimestamps.take k).map (·.action)) ∧
    ((resolveEventsIfPossible env s).2 ≠ none →
      (resolveEventsIfPossible env s).1.eventsPendingTimestamps =
        s.eventsPendingTimestamps) := by
  refine ⟨?_, resolveEventsIfPossible_error_pending env s⟩
  intro h
  rcases s with ⟨e1, e2, e3, e4, e5, e6, e7, e8⟩
  cases e1 with
  | false =>
    refine ⟨0, by simp, ?_, ?_⟩ <;> simp [resolveEventsIfPossible]
  | true =>
    have hchar := resolveLoop_characterization env e6 e7
    rcases hr : resolveLoop env e6 e7 with ⟨res, k, err⟩
    rw [hr] at hchar
    dsimp only at hchar
    cases err with
    | some e =>
      simp [resolveEventsIfPossible, hr] at h
    | none =>
      refine ⟨k, hchar.2, ?_, ?_⟩
      · by_cases hk : 0 < k
        · simp [resolveEventsIfPossible, hr, hk]
        · have hk0 : k = 0 := by omega
          subst hk0
          simp [resolveEventsIfPossible, hr]
      · by_cases hk : 0 < k
        · simp only [resolveEventsIfPossible, Bool.true_eq_false, if_false, hr,
            hk, if_true]
          rw [hchar.1]
          simp [accumFrom_map_action]
        · have hk0 : k = 0 := by omega
          subst hk0
          simp only [resolveEventsIfPossible, Bool.true_eq_false, if_false, hr]
          rw [hchar.1]
          simp [accumFrom]

/-- C3 witness: the normal-return partition evaluated on two available
pending entries: both are consumed, the queue empties, and their actions
land at the end of the resolved list. -/
theorem C3_witness :
    ∃ k, k ≤ twoPending.eventsPendingTimestamps.length ∧
      (resolveEventsIfPossible envOnes twoPending).1.eventsPendingTimestamps =
        twoPending.eventsPendingTimestamps.drop k ∧
      (resolveEventsIfPossible envOnes twoPending).1.resolvedEvents.map
          (·.action) =
        twoPending.resolvedEvents.map (·.action) ++
          (twoPending.eventsPendingTimestamps.take k).map (·.action) :=
  (C3_consumed_removed envOnes twoPending).1 rfl

/-- The walk on a queue whose front entries are all available and
non-disjoint, followed by an available entry observed disjoint: it throws
after consuming exactly the front. -/
theorem resolveLoop_disjoint_at (env : GLEnv)
    (p : GPUProfilerEventPendingTimestamp)
    (after : List GPUProfilerEventPendingTimestamp)
    (hpav : env.available p.query = true)
    (hpd : env.disjoint p.query = true) :
    ∀ (before : List GPUProfilerEventPendingTimestamp)
      (resolved : List GPUProfilerResolvedEvent),
      (∀ q ∈ before, env.available q.query = true) →
      (∀ q ∈ before, env.disjoint q.query = false) →
      resolveLoop env (before ++ p :: after) resolved =
        (resolved ++ accumFrom env (lastTimestampOf resolved) before,
         before.length, some ProfilerError.unreliableTiming) := by
  intro before
  induction before with
  | nil =>
    intro resolved _ _
    simp [resolveLoop, hpav, hpd, accumFrom]
  | cons b rest ih =>
    intro resolved hav hnd
    have hb : env.available b.query = true := hav b (by simp)
    have hbd : env.disjoint b.query = false := hnd b (by simp)
    have ih1 := ih (resolved ++ [⟨b.action,
        lastTimestampOf resolved + env.result b.query⟩])
      (fun q hq => hav q (by simp [hq])) (fun q hq => hnd q (by simp [hq]))
    simp only [List.cons_append, resolveLoop, hb, hbd, Bool.true_eq_false,
      if_false, Bool.false_eq_true, List.append_eq]
    rw [ih1, lastTimestampOf_concat]
    simp [accumFrom, List.append_assoc]

/-- C6: if the disjoint/unreliable-timing flag is observed true while
resolving an available pending measurement, the call fails with the
unreliable-timing error, that entry's event is not appended to the
resolved list — only the entries strictly before it are — and the pending
queue is left untouched, so no entry at or after the failing one is
resolved by that call. -/
theorem C6_disjoint_aborts (env : GLEnv) (s : WebGLProfiler)
    (before : List GPUProfilerEventPendingTimestamp)
    (p : GPUProfilerEventPendingTimestamp)
    (after : List GPUProfilerEventPendingTimestamp)
    (hext : s.extAvailable = true)
    (hsplit : s.eventsPendingTimestamps = before ++ p :: after)
    (hav : ∀ q ∈ before, env.available q.query = true)
    (hnd : ∀ q ∈ before, env.disjoint q.query = false)
    (hpav : env.available p.query = true)
    (hpd : env.disjoint p.query = true) :
    (resolveEventsIfPossible env s).2 = some ProfilerError.unreliableTiming ∧
      (resolveEventsIfPossible env s).1.resolvedEvents.map (·.action) =
        s.resolvedEvents.map (·.action) ++ before.map (·.action) ∧
      (resolveEventsIfPossible env s).1.eventsPendingTimestamps =
        s.eventsPendingTimestamps := by
  have hloop := resolveLoop_disjoint_at env p after hpav hpd before
    s.resolvedEvents hav hnd
  rcases s with ⟨e1, e2, e3, e4, e5, e6, e7, e8⟩
  simp only at hext hsplit hloop
  subst hext
  subst hsplit
  simp [resolveEventsIfPossible, hloop, accumFrom_map_action]

/-- C6 witness: three available pending measurements with the disjoint
flag observed while resolving the third: the call raises the
unreliable-timing error, resolves only the first two, and leaves the
queue untouched. -/
theorem C6_witness :
    (resolveEventsIfPossible envDisjAt2 threePending).2 =
        some ProfilerError.unreliableTiming ∧
      (resolveEventsIfPossible envDisjAt2 threePending).1.resolvedEvents.map
          (·.action) =
        threePending.resolvedEvents.map (·.action) ++
          [⟨⟨.OPEN_FRAME, "x"⟩, 0⟩,
            (⟨⟨.OPEN_FRAME, "y"⟩, 1⟩ :
              GPUProfilerEventPendingTimestamp)].map (·.action) ∧
      (resolveEventsIfPossible envDisjAt2 threePending).1.eventsPendingTimestamps =
        threePending.eventsPendingTimestamps :=
  C6_disjoint_aborts envDisjAt2 threePending
    [⟨⟨.OPEN_FRAME, "x"⟩, 0⟩, ⟨⟨.OPEN_FRAME, "y"⟩, 1⟩]
    ⟨⟨.CLOSE_FRAME, "y"⟩, 2⟩ [] rfl rfl (by decide) (by decide) rfl rfl

/-! ### Timestamp monotonicity -/

/-- Accumulation from a base with non-negative elapsed durations yields a
non-decreasing timestamp chain whose head is at least the base. -/
theorem accumFrom_chain (env : GLEnv) (hr : ∀ q, 0 ≤ env.result q) :
    ∀ (l : List GPUProfilerEventPendingTimestamp) (base : Int),
      List.Chain' (fun a b : GPUProfilerResolvedEvent =>
          a.timestamp ≤ b.timestamp) (accumFrom env base l) ∧
        ∀ x ∈ (accumFrom env base l).head?, base ≤ x.timestamp := by
  intro l
  induction l with
  | nil => intro base; simp [accumFrom]
  | cons p rest ih =>
    intro base
    have ihb := ih (base + env.result p.query)
    constructor
    · rw [accumFrom, List.chain'_cons']
      exact ⟨ihb.2, ihb.1⟩
    · intro x hx
      simp [accumFrom] at hx
      subst hx
      have := hr p.query
      simp
      omega

/-- Appending an accumulation that starts from the list's last timestamp
preserves the non-decreasing chain. -/
theorem chain_append_accumFrom (env : GLEnv) (hr : ∀ q, 0 ≤ env.result q)
    (resolved : List GPUProfilerResolvedEvent)
    (l : List GPUProfilerEventPendingTimestamp)
    (hs : List.Chain' (fun a b : GPUProfilerResolvedEvent =>
      a.timestamp ≤ b.timestamp) resolved) :
    List.Chain' (fun a b : GPUProfilerResolvedEvent =>
        a.timestamp ≤ b.timestamp)
      (resolved ++ accumFrom env (lastTimestampOf resolved) l) := by
  rw [List.chain'_append]
  refine ⟨hs, (accumFrom_chain env hr l (lastTimestampOf resolved)).1, ?_⟩
  intro x hx y hy
  have hlast : lastTimestampOf resolved = x.timestamp := by
    rw [Option.mem_def] at hx
    simp [lastTimestampOf, hx]
  have := (accumFrom_chain env hr l (lastTimestampOf resolved)).2 y hy
  omega

/-- One resolution round preserves the non-decreasing chain on the
resolved list (whether or not it raises). -/
theorem resolveEventsIfPossible_chain (env : GLEnv) (s : WebGLProfiler)
    (hr : ∀ q, 0 ≤ env.result q)
    (hs : List.Chain' (fun a b : GPUProfilerResolvedEvent =>
      a.timestamp ≤ b.timestamp) s.resolvedEvents) :
    List.Chain' (fun a b : GPUProfilerResolvedEvent =>
        a.timestamp ≤ b.timestamp)
      ((resolveEventsIfPossible env s).1.resolvedEvents) := by
  rcases s with ⟨e1, e2, e3, e4, e5, e6, e7, e8⟩
  cases e1 with
  | false => exact hs
  | true =>
    have hchar := resolveLoop_characterization env e6 e7
    rcases hr2 : resolveLoop env e6 e7 with ⟨res, k, err⟩
    rw [hr2] at hchar
    dsimp only at hchar
    have hres : List.Chain' (fun a b : GPUProfilerResolvedEvent =>
        a.timestamp ≤ b.timestamp) res := by
      rw [hchar.1]
      exact chain_append_accumFrom env hr e7 _ hs
    cases err with
    | some e => simpa [resolveEventsIfPossible, hr2] using hres
    | none =>
      by_cases hk : 0 < k
      · simpa [resolveEventsIfPossible, hr2, hk] using hres
      · simpa [resolveEventsIfPossible, hr2, hk] using hres

/-- The exporter's event list carries over the resolved timestamps in
order. -/
theorem internEvents_atVals :
    ∀ (evs : List GPUProfilerResolvedEvent) (frames : List String),
      ((internEvents evs frames).2).map (·.atVal) = evs.map (·.timestamp) := by
  intro evs
  induction evs with
  | nil => intro frames; rfl
  | cons e rest ih => intro frames; simp [internEvents, ih]

/-- C5: assuming every elapsed duration reported by the GL environment is
non-negative (and the resolved list so far is timestamp-sorted, as it
always is for a profile built by this pipeline), any profile produced by
the export has non-decreasing `at` values, `startValue = 0`, and
`endValue` equal to the last event's `at`. -/
theorem C5_monotone_profile (env : GLEnv) (s : WebGLProfiler)
    (hr : ∀ q, 0 ≤ env.result q)
    (hs : List.Chain' (fun a b : GPUProfilerResolvedEvent =>
      a.timestamp ≤ b.timestamp) s.resolvedEvents) :
    ∀ s1 p, exportSpeedscopeProfile env s = some (s1, Except.ok p) →
      List.Chain' (· ≤ ·) (p.events.map SpeedscopeEvent.atVal) ∧
        p.startValue = 0 ∧
        p.events.getLast?.map SpeedscopeEvent.atVal = some p.endValue := by
  intro s1 p hexp
  have hchain := resolveEventsIfPossible_chain env s hr hs
  rcases hres : resolveEventsIfPossible env s with ⟨s2, err⟩
  rw [hres] at hchain
  cases err with
  | some e => simp [exportSpeedscopeProfile, hres] at hexp
  | none =>
    simp only [exportSpeedscopeProfile, hres] at hexp
    by_cases hemp : s2.eventsPendingTimestamps.isEmpty
    · simp only [hemp, if_true, Option.some.injEq, Prod.mk.injEq] at hexp
      obtain ⟨hs2, hp⟩ := hexp
      rw [hs2] at hchain hp
      rcases hlast : s1.resolvedEvents.getLast? with _ | lastEv
      · simp [toSpeedscopeProfile, hlast] at hp
      · simp only [toSpeedscopeProfile, hlast, Except.ok.injEq] at hp
        subst hp
        refine ⟨?_, rfl, ?_⟩
        · rw [internEvents_atVals, List.chain'_map]
          exact hchain
        · rw [← List.getLast?_map, internEvents_atVals, List.getLast?_map,
            hlast]
          rfl
    · simp [hemp] at hexp

/-- C5 witness: the export of the `start; push "a"; pop "a"; stop` session
under unit durations. -/
theorem C5_witness :
    ∃ s1 p, exportSpeedscopeProfile envOnes sessionA =
        some (s1, Except.ok p) ∧
      List.Chain' (· ≤ ·) (p.events.map SpeedscopeEvent.atVal) ∧
        p.startValue = 0 ∧
        p.events.getLast?.map SpeedscopeEvent.atVal = some p.endValue := by
  refine ⟨_, _, rfl, C5_monotone_profile envOnes sessionA ?_ ?_ _ _ rfl⟩
  · intro q
    norm_num [envOnes]
  · simp [show sessionA.resolvedEvents = [] from rfl]

/-! ### The running/active-handle invariant -/

theorem markAction_inv (a : GPUProfilerAction) (s s' : WebGLProfiler)
    (h : RunningInv s) (hm : WebGLProfiler.markAction a s = (s', none)) :
    RunningInv s' := by
  rcases s with ⟨e1, e2, e3, e4, e5, e6, e7, e8⟩
  cases e1 with
  | false =>
    simp [WebGLProfiler.markAction] at hm
    rw [← hm]
    exact h
  | true =>
    cases e3 with
    | none => simp [WebGLProfiler.markAction] at hm
    | some q =>
      simp [WebGLProfiler.markAction] at hm
      rw [← hm]
      simp only [RunningInv] at h ⊢
      simp at h ⊢
      exact h

theorem pushContext_inv (n : String) (s s' : WebGLProfiler)
    (h : RunningInv s) (hm : s.pushContext n = (s', none)) : RunningInv s' := by
  rcases hmk : WebGLProfiler.markAction ⟨.OPEN_FRAME, n⟩ s with ⟨s1, err⟩
  cases err with
  | some e => simp [WebGLProfiler.pushContext, hmk] at hm
  | none =>
    simp only [WebGLProfiler.pushContext, hmk] at hm
    simp at hm
    have h1 := markAction_inv _ _ _ h hmk
    rw [← hm]
    simpa [RunningInv] using h1

theorem popContext_inv (n : String) (s s' : WebGLProfiler)
    (h : RunningInv s) (hm : s.popContext n = (s', none)) : RunningInv s' := by
  rcases s with ⟨e1, e2, e3, e4, e5, e6, e7, e8⟩
  cases e8 with
  | nil => simp [WebGLProfiler.popContext] at hm
  | cons top rest =>
    by_cases hne : top = n
    · simp only [WebGLProfiler.popContext, hne] at hm
      simp at hm
      exact markAction_inv _ _ _ (by simpa [RunningInv] using h) hm
    · simp [WebGLProfiler.popContext, hne] at hm

theorem start_inv (s s' : WebGLProfiler) (hm : s.start = (s', none)) :
    RunningInv s' := by
  rcases s with ⟨e1, e2, e3, e4, e5, e6, e7, e8⟩
  cases e1 with
  | false => simp [WebGLProfiler.start] at hm
  | true =>
    cases e4 with
    | true => simp [WebGLProfiler.start] at hm
    | false =>
      cases e2 with
      | none =>
        simp [WebGLProfiler.start, WebGLProfiler.pushContext,
          WebGLProfiler.markAction] at hm
        rw [← hm]
        simp [RunningInv]
      | some r =>
        cases hdl : isDenylistedRenderer r with
        | true => simp [WebGLProfiler.start, hdl] at hm
        | false =>
          simp [WebGLProfiler.start, hdl, WebGLProfiler.pushContext,
            WebGLProfiler.markAction] at hm
          rw [← hm]
          simp [RunningInv]

theorem stop_inv (s s' : WebGLProfiler) (h : RunningInv s)
    (hm : s.stop = (s', none)) : RunningInv s' := by
  rcases s with ⟨e1, e2, e3, e4, e5, e6, e7, e8⟩
  cases e1 with
  | false =>
    simp [WebGLProfiler.stop] at hm
    rw [← hm]
    exact h
  | true =>
    cases e4 with
    | false => simp [WebGLProfiler.stop] at hm
    | true =>
      rcases hpc : WebGLProfiler.popContext "profile"
          ⟨true, e2, e3, false, e5, e6, e7, e8⟩ with ⟨s1, err⟩
      cases err with
      | some e => simp [WebGLProfiler.stop, hpc] at hm
      | none =>
        simp only [WebGLProfiler.stop, hpc] at hm
        simp at hm
        have hrun : s1.isRunning = false := by
          rcases e8 with _ | ⟨top, rest⟩
          · simp [WebGLProfiler.popContext] at hpc
          · by_cases hne : top = "profile"
            · simp only [WebGLProfiler.popContext, hne] at hpc
              simp at hpc
              rcases e3 with _ | q
              · simp [WebGLProfiler.markAction] at hpc
              · simp [WebGLProfiler.markAction] at hpc
                rw [← hpc]
            · simp [WebGLProfiler.popContext, hne] at hpc
        rw [← hm]
        simp [RunningInv, hrun]

theorem resolveEventsIfPossible_inv (env : GLEnv) (s s' : WebGLProfiler)
    (h : RunningInv s) (hm : resolveEventsIfPossible env s = (s', none)) :
    RunningInv s' := by
  rcases s with ⟨e1, e2, e3, e4, e5, e6, e7, e8⟩
  cases e1 with
  | false =>
    simp [resolveEventsIfPossible] at hm
    rw [← hm]
    exact h
  | true =>
    rcases hr : resolveLoop env e6 e7 with ⟨res, k, err⟩
    cases err with
    | some e => simp [resolveEventsIfPossible, hr] at hm
    | none =>
      by_cases hk : 0 < k
      · simp [resolveEventsIfPossible, hr, hk] at hm
        rw [← hm]
        simpa [RunningInv] using h
      · simp [resolveEventsIfPossible, hr, hk] at hm
        rw [← hm]
        simpa [RunningInv] using h

theorem runOps_inv (ops : List ProfilerOp) (s s' : WebGLProfiler)
    (h : RunningInv s) (hm : WebGLProfiler.runOps ops s = (s', none)) :
    RunningInv s' := by
  induction ops generalizing s with
  | nil =>
    simp [WebGLProfiler.runOps] at hm
    rw [← hm]
    exact h
  | cons op rest ih =>
    rcases hstep : WebGLProfiler.runOp op s with ⟨s1, err⟩
    cases err with
    | some e => simp [WebGLProfiler.runOps, hstep] at hm
    | none =>
      simp only [WebGLProfiler.runOps, hstep] at hm
      have h1 : RunningInv s1 := by
        cases op with
        | push n => exact pushContext_inv n s s1 h hstep
        | pop n => exact popContext_inv n s s1 h hstep
      exact ih s1 h1 hm

/-- C10: at every public-operation boundary — after construction and after
each completed (non-raising) call to start, stop, pushContext, popContext,
withContext, markAction, the resolution routine, or any sequence of
push/pop calls — the `isRunning` flag is true exactly when a
measurement handle (`activeQuery`) is active. -/
theorem C10_running_iff_active :
    (∀ e r, RunningInv (WebGLProfiler.mk0 e r)) ∧
      (∀ (s s' : WebGLProfiler), s.start = (s', none) → RunningInv s') ∧
      (∀ (s s' : WebGLProfiler), RunningInv s → s.stop = (s', none) →
        RunningInv s') ∧
      (∀ a (s s' : WebGLProfiler), RunningInv s →
        WebGLProfiler.markAction a s = (s', none) → RunningInv s') ∧
      (∀ n (s s' : WebGLProfiler), RunningInv s → s.pushContext n = (s', none) →
        RunningInv s') ∧
      (∀ n (s s' : WebGLProfiler), RunningInv s → s.popContext n = (s', none) →
        RunningInv s') ∧
      (∀ env (s s' : WebGLProfiler), RunningInv s →
        resolveEventsIfPossible env s = (s', none) → RunningInv s') ∧
      (∀ ops (s s' : WebGLProfiler), RunningInv s →
        WebGLProfiler.runOps ops s = (s', none) → RunningInv s') ∧
      (∀ n body (s s' : WebGLProfiler), RunningInv s →
        WebGLProfiler.withContext n body s = (s', none) → RunningInv s') :=
  ⟨fun e r => by simp [RunningInv, WebGLProfiler.mk0],
   start_inv,
   fun s s' h hm => stop_inv s s' h hm,
   fun a s s' => markAction_inv a s s',
   fun n s s' => pushContext_inv n s s',
   fun n s s' => popContext_inv n s s',
   fun env s s' => resolveEventsIfPossible_inv env s s',
   fun ops s s' => runOps_inv ops s s',
   fun n body s s' h hm => runOps_inv _ s s' h hm⟩

/-- C10 witness: the invariant holds concretely after construction and
after a fresh successful `start()`. -/
theorem C10_witness :
    RunningInv (WebGLProfiler.mk0 true none) ∧
      RunningInv ((WebGLProfiler.mk0 true none).start.1) :=
  ⟨C10_running_iff_active.1 true none,
   C10_running_iff_active.2.1 (WebGLProfiler.mk0 true none) _ rfl⟩

/-- C9: for `start(); pushContext("a"); popContext("a"); stop()` followed
by an export once every measurement is available with a non-negative
duration, the session raises nothing and the profile has exactly the two
frames `"profile"`, `"a"` interned in first-seen order and exactly the
four events O(profile), O(a), C(a), C(profile), with non-decreasing `at`
values and `endValue` equal to the final `at`. -/
theorem C9_session_export (env : GLEnv) (hav : ∀ q, env.available q = true)
    (hd : ∀ q, env.disjoint q = false) (hr : ∀ q, 0 ≤ env.result q) :
    (WebGLProfiler.session [.push "a", .pop "a"]
        (WebGLProfiler.mk0 true none)).2 = none ∧
      ∃ s1 p, exportSpeedscopeProfile env sessionA = some (s1, Except.ok p) ∧
        p.frames = ["profile", "a"] ∧
        p.events.map (fun e => (e.type, e.frame)) =
          [(SpeedscopeEventType.OPEN_FRAME, 0),
           (SpeedscopeEventType.OPEN_FRAME, 1),
           (SpeedscopeEventType.CLOSE_FRAME, 1),
           (SpeedscopeEventType.CLOSE_FRAME, 0)] ∧
        List.Chain' (· ≤ ·) (p.events.map SpeedscopeEvent.atVal) ∧
        p.events.getLast?.map SpeedscopeEvent.atVal = some p.endValue := by
  refine ⟨rfl, ?_⟩
  have hres : resolveEventsIfPossible env sessionA =
      (⟨true, none, none, false, 5, [],
        accumFrom env 0
          [⟨⟨.OPEN_FRAME, "profile"⟩, 0⟩, ⟨⟨.OPEN_FRAME, "a"⟩, 1⟩,
           ⟨⟨.CLOSE_FRAME, "a"⟩, 2⟩, ⟨⟨.CLOSE_FRAME, "profile"⟩, 3⟩], []⟩,
       none) := by
    rw [show sessionA = (⟨true, none, none, false, 5,
        [⟨⟨.OPEN_FRAME, "profile"⟩, 0⟩, ⟨⟨.OPEN_FRAME, "a"⟩, 1⟩,
         ⟨⟨.CLOSE_FRAME, "a"⟩, 2⟩, ⟨⟨.CLOSE_FRAME, "profile"⟩, 3⟩], [], []⟩ :
        WebGLProfiler) from rfl]
    simp [resolveEventsIfPossible, resolveLoop, hav, hd, lastTimestampOf,
      accumFrom]
  have hprof : toSpeedscopeProfile (⟨true, none, none, false, 5, [],
      accumFrom env 0
        [⟨⟨.OPEN_FRAME, "profile"⟩, 0⟩, ⟨⟨.OPEN_FRAME, "a"⟩, 1⟩,
         ⟨⟨.CLOSE_FRAME, "a"⟩, 2⟩, ⟨⟨.CLOSE_FRAME, "profile"⟩, 3⟩], []⟩ :
      WebGLProfiler) =
      Except.ok ⟨["profile", "a"], 0,
        env.result 0 + env.result 1 + env.result 2 + env.result 3,
        [⟨.OPEN_FRAME, 0, env.result 0⟩,
         ⟨.OPEN_FRAME, 1, env.result 0 + env.result 1⟩,
         ⟨.CLOSE_FRAME, 1, env.result 0 + env.result 1 + env.result 2⟩,
         ⟨.CLOSE_FRAME, 0,
           env.result 0 + env.result 1 + env.result 2 + env.result 3⟩]⟩ := by
    simp [toSpeedscopeProfile, accumFrom, internEvents, getOrInsertFrame,
      List.indexOf_cons]
  refine ⟨⟨true, none, none, false, 5, [],
      accumFrom env 0
        [⟨⟨.OPEN_FRAME, "profile"⟩, 0⟩, ⟨⟨.OPEN_FRAME, "a"⟩, 1⟩,
         ⟨⟨.CLOSE_FRAME, "a"⟩, 2⟩, ⟨⟨.CLOSE_FRAME, "profile"⟩, 3⟩], []⟩,
    ⟨["profile", "a"], 0,
      env.result 0 + env.result 1 + env.result 2 + env.result 3,
      [⟨.OPEN_FRAME, 0, env.result 0⟩,
       ⟨.OPEN_FRAME, 1, env.result 0 + env.result 1⟩,
       ⟨.CLOSE_FRAME, 1, env.result 0 + env.result 1 + env.result 2⟩,
       ⟨.CLOSE_FRAME, 0,
         env.result 0 + env.result 1 + env.result 2 + env.result 3⟩]⟩,
    ?_, ?_, ?_, ?_, ?_⟩
  · simp only [exportSpeedscopeProfile, hres, List.isEmpty_nil, if_true]
    rw [hprof]
  · rfl
  · rfl
  · have h0 := hr 0
    have h1 := hr 1
    have h2 := hr 2
    have h3 := hr 3
    simp only [List.map_cons, List.map_nil, List.chain'_cons,
      List.chain'_singleton, and_true]
    refine ⟨?_, ?_, ?_⟩ <;> omega
  · rfl

/-- C9 witness: the scenario with every duration equal to one. -/
theorem C9_witness :
    (WebGLProfiler.session [.push "a", .pop "a"]
        (WebGLProfiler.mk0 true none)).2 = none ∧
      ∃ s1 p, exportSpeedscopeProfile envOnes sessionA =
          some (s1, Except.ok p) ∧
        p.frames = ["profile", "a"] ∧
        p.events.map (fun e => (e.type, e.frame)) =
          [(SpeedscopeEventType.OPEN_FRAME, 0),
           (SpeedscopeEventType.OPEN_FRAME, 1),
           (SpeedscopeEventType.CLOSE_FRAME, 1),
           (SpeedscopeEventType.CLOSE_FRAME, 0)] ∧
        List.Chain' (· ≤ ·) (p.events.map SpeedscopeEvent.atVal) ∧
        p.events.getLast?.map SpeedscopeEvent.atVal = some p.endValue :=
  C9_session_export envOnes (fun _ => rfl) (fun _ => rfl)
    (fun _ => by norm_num [envOnes])

/-! ### Well-nested sessions export balanced event lists -/

theorem takeWhile_all {α : Type} (p : α → Bool) :
    ∀ l : List α, (∀ x ∈ l, p x = true) → l.takeWhile p = l := by
  intro l
  induction l with
  | nil => intro _; rfl
  | cons a rest ih =>
    intro h
    rw [List.takeWhile_cons, h a (by simp), if_pos rfl]
    rw [ih fun x hx => h x (by simp [hx])]

theorem runOps_append (a b : List ProfilerOp) (s : WebGLProfiler) :
    WebGLProfiler.runOps (a ++ b) s =
      match WebGLProfiler.runOps a s with
      | (s1, none) => WebGLProfiler.runOps b s1
      | (s1, some e) => (s1, some e) := by
  induction a generalizing s with
  | nil => simp [WebGLProfiler.runOps]
  | cons op rest ih =>
    rcases hstep : WebGLProfiler.runOp op s with ⟨s1, err⟩
    cases err with
    | some e => simp [WebGLProfiler.runOps, hstep]
    | none => simp [WebGLProfiler.runOps, hstep, ih]

theorem pushContext_success (n : String) (s : WebGLProfiler)
    (h1 : s.extAvailable = true) (h2 : s.activeQuery.isSome = true) :
    ∃ s1, s.pushContext n = (s1, none) ∧
      s1.extAvailable = true ∧ s1.activeQuery.isSome = true ∧
      s1.isRunning = s.isRunning ∧
      s1.namedContextStack = n :: s.namedContextStack ∧
      s1.resolvedEvents = s.resolvedEvents ∧
      s1.eventsPendingTimestamps.map (·.action) =
        s.eventsPendingTimestamps.map (·.action) ++
          [⟨.OPEN_FRAME, n⟩] := by
  rcases s with ⟨e1, e2, e3, e4, e5, e6, e7, e8⟩
  simp only at h1 h2
  subst h1
  rcases e3 with _ | q
  · simp at h2
  · exact ⟨_, rfl, rfl, rfl, rfl, rfl, rfl, by simp⟩

theorem popContext_success (n : String) (s : WebGLProfiler)
    (rest : List String) (h1 : s.extAvailable = true)
    (h2 : s.activeQuery.isSome = true)
    (h3 : s.namedContextStack = n :: rest) :
    ∃ s1, s.popContext n = (s1, none) ∧
      s1.extAvailable = true ∧ s1.activeQuery.isSome = true ∧
      s1.isRunning = s.isRunning ∧
      s1.namedContextStack = rest ∧
      s1.resolvedEvents = s.resolvedEvents ∧
      s1.eventsPendingTimestamps.map (·.action) =
        s.eventsPendingTimestamps.map (·.action) ++
          [⟨.CLOSE_FRAME, n⟩] := by
  rcases s with ⟨e1, e2, e3, e4, e5, e6, e7, e8⟩
  simp only at h1 h2 h3
  subst h1
  subst h3
  rcases e3 with _ | q
  · simp at h2
  · have hpop : WebGLProfiler.popContext n
        ⟨true, e2, some q, e4, e5, e6, e7, n :: rest⟩ =
        (⟨true, e2, some e5, e4, e5 + 1,
          e6 ++ [⟨⟨.CLOSE_FRAME, n⟩, q⟩], e7, rest⟩, none) := by
      simp [WebGLProfiler.popContext, WebGLProfiler.markAction]
    exact ⟨_, hpop, rfl, rfl, rfl, rfl, rfl, by simp⟩

theorem runOps_wellNested {ops : List ProfilerOp} (h : WellNested ops) :
    ∀ s : WebGLProfiler, s.extAvailable = true → s.activeQuery.isSome = true →
      ∃ s', WebGLProfiler.runOps ops s = (s', none) ∧
        s'.extAvailable = true ∧ s'.activeQuery.isSome = true ∧
        s'.isRunning = s.isRunning ∧
        s'.namedContextStack = s.namedContextStack ∧
        s'.resolvedEvents = s.resolvedEvents ∧
        s'.eventsPendingTimestamps.map (·.action) =
          s.eventsPendingTimestamps.map (·.action) ++
            ops.map ProfilerOp.action := by
  induction h with
  | nil =>
    intro s h1 h2
    exact ⟨s, rfl, h1, h2, rfl, rfl, rfl, by simp⟩
  | wrap name hinner ih =>
    intro s h1 h2
    obtain ⟨s1, hpush, p1, p2, p3, p4, p5, p6⟩ := pushContext_success name s h1 h2
    obtain ⟨s2, hrun, q1, q2, q3, q4, q5, q6⟩ := ih s1 p1 p2
    have hstack2 : s2.namedContextStack = name :: s.namedContextStack := by
      rw [q4, p4]
    obtain ⟨s3, hpop, r1, r2, r3, r4, r5, r6⟩ :=
      popContext_success name s2 s.namedContextStack q1 q2 hstack2
    refine ⟨s3, ?_, r1, r2, ?_, ?_, ?_, ?_⟩
    · show WebGLProfiler.runOps (.push name :: (_ ++ [.pop name])) s = (s3, none)
      rw [WebGLProfiler.runOps]
      simp only [WebGLProfiler.runOp, hpush]
      rw [runOps_append]
      simp only [hrun]
      rw [WebGLProfiler.runOps]
      simp only [WebGLProfiler.runOp, hpop]
      rfl
    · rw [r3, q3, p3]
    · rw [r4]
    · rw [r5, q5, p5]
    · rw [r6, q6, p6]
      simp [ProfilerOp.action]
  | append ha hb iha ihb =>
    intro s h1 h2
    obtain ⟨s1, hruna, p1, p2, p3, p4, p5, p6⟩ := iha s h1 h2
    obtain ⟨s2, hrunb, q1, q2, q3, q4, q5, q6⟩ := ihb s1 p1 p2
    refine ⟨s2, ?_, q1, q2, ?_, ?_, ?_, ?_⟩
    · rw [runOps_append]
      simp only [hruna, hrunb]
    · rw [q3, p3]
    · rw [q4, p4]
    · rw [q5, p5]
    · rw [q6, p6]
      simp

theorem start_shape (s : WebGLProfiler) (h1 : s.extAvailable = true)
    (h2 : s.isRunning = false)
    (hdl : ∀ r, s.rendererInfo = some r → isDenylistedRenderer r = false) :
    ∃ sS, s.start = (sS, none) ∧ sS.extAvailable = true ∧
      sS.activeQuery.isSome = true ∧ sS.isRunning = true ∧
      sS.resolvedEvents = [] ∧
      sS.namedContextStack = "profile" :: s.namedContextStack ∧
      sS.eventsPendingTimestamps.map (·.action) =
        [⟨.OPEN_FRAME, "profile"⟩] := by
  rcases s with ⟨e1, e2, e3, e4, e5, e6, e7, e8⟩
  simp only at h1 h2
  subst h1
  subst h2
  rcases e2 with _ | r
  · refine ⟨⟨true, none, some (e5 + 1), true, e5 + 2,
      [⟨⟨.OPEN_FRAME, "profile"⟩, e5⟩], [], "profile" :: e8⟩,
      ?_, rfl, rfl, rfl, rfl, rfl, by simp⟩
    simp [WebGLProfiler.start, WebGLProfiler.pushContext,
      WebGLProfiler.markAction]
  · have hr := hdl r rfl
    refine ⟨⟨true, some r, some (e5 + 1), true, e5 + 2,
      [⟨⟨.OPEN_FRAME, "profile"⟩, e5⟩], [], "profile" :: e8⟩,
      ?_, rfl, rfl, rfl, rfl, rfl, by simp⟩
    simp [WebGLProfiler.start, hr, WebGLProfiler.pushContext,
      WebGLProfiler.markAction]

theorem stop_shape (s : WebGLProfiler) (h1 : s.extAvailable = true)
    (h2 : s.activeQuery.isSome = true) (h3 : s.isRunning = true)
    (h4 : s.namedContextStack = ["profile"]) :
    ∃ sf, s.stop = (sf, none) ∧ sf.extAvailable = true ∧
      sf.resolvedEvents = s.resolvedEvents ∧
      sf.namedContextStack = [] ∧
      sf.eventsPendingTimestamps.map (·.action) =
        s.eventsPendingTimestamps.map (·.action) ++
          [⟨.CLOSE_FRAME, "profile"⟩] := by
  rcases s with ⟨e1, e2, e3, e4, e5, e6, e7, e8⟩
  simp only at h1 h2 h3 h4
  subst h1
  subst h3
  subst h4
  rcases e3 with _ | q
  · simp at h2
  · refine ⟨⟨true, e2, none, false, e5 + 1,
      e6 ++ [⟨⟨.CLOSE_FRAME, "profile"⟩, q⟩], e7, []⟩,
      ?_, rfl, rfl, rfl, by simp⟩
    simp [WebGLProfiler.stop, WebGLProfiler.popContext,
      WebGLProfiler.markAction]

theorem session_wellNested {ops : List ProfilerOp} (h : WellNested ops)
    (s0 : WebGLProfiler) (hext : s0.extAvailable = true)
    (hrun : s0.isRunning = false) (hstack : s0.namedContextStack = [])
    (hdl : ∀ r, s0.rendererInfo = some r → isDenylistedRenderer r = false) :
    ∃ sf, WebGLProfiler.session ops s0 = (sf, none) ∧
      sf.extAvailable = true ∧ sf.resolvedEvents = [] ∧
      sf.eventsPendingTimestamps.map (·.action) =
        ⟨.OPEN_FRAME, "profile"⟩ ::
          (ops.map ProfilerOp.action ++ [⟨.CLOSE_FRAME, "profile"⟩]) := by
  obtain ⟨sS, hstart, a1, a2, a3, a4, a5, a6⟩ := start_shape s0 hext hrun hdl
  obtain ⟨s2, hops, b1, b2, b3, b4, b5, b6⟩ := runOps_wellNested h sS a1 a2
  have hst2 : s2.namedContextStack = ["profile"] := by
    rw [b4, a5, hstack]
  have hrun2 : s2.isRunning = true := by
    rw [b3, a3]
  obtain ⟨sf, hstop, c1, c2, c3, c4⟩ := stop_shape s2 b1 b2 hrun2 hst2
  refine ⟨sf, ?_, c1, ?_, ?_⟩
  · simp only [WebGLProfiler.session, hstart, hops, hstop]
  · rw [c2, b5, a4]
  · rw [c4, b6, a6]
    simp

theorem wellNested_checkBalActs {ops : List ProfilerOp} (h : WellNested ops) :
    ∀ (rest : List GPUProfilerAction) (stack : List String),
      checkBalActs (ops.map ProfilerOp.action ++ rest) stack =
        checkBalActs rest stack := by
  induction h with
  | nil => intro rest stack; rfl
  | wrap name hinner ih =>
    intro rest stack
    simp only [List.map_cons, List.map_append, List.map_nil, List.cons_append,
      List.append_assoc, List.nil_append]
    show checkBalActs (⟨.OPEN_FRAME, name⟩ :: _) stack = _
    rw [show ∀ l st, checkBalActs (⟨GPUProfilerActionType.OPEN_FRAME, name⟩ :: l) st =
        checkBalActs l (name :: st) from fun l st => rfl]
    rw [ih ((ProfilerOp.pop name).action :: rest) (name :: stack)]
    simp [checkBalActs, ProfilerOp.action]
  | append ha hb iha ihb =>
    intro rest stack
    simp only [List.map_append, List.append_assoc]
    rw [iha, ihb]

theorem checkBalanced_transfer (φ : String → Nat) :
    ∀ (acts : List GPUProfilerAction) (evs : List SpeedscopeEvent)
      (nstack : List String),
      evs.map (·.type) = acts.map (fun a => actionTypeToSpeedscope a.type) →
      evs.map (·.frame) = acts.map (fun a => φ a.name) →
      checkBalActs acts nstack = true →
      checkBalanced evs (nstack.map φ) = true := by
  intro acts
  induction acts with
  | nil =>
    intro evs nstack htype hframe hbal
    have hevs : evs = [] := by
      cases evs with
      | nil => rfl
      | cons e erest => simp at htype
    subst hevs
    simp only [checkBalActs] at hbal
    rw [List.isEmpty_iff] at hbal
    subst hbal
    rfl
  | cons a arest ih =>
    intro evs nstack htype hframe hbal
    cases evs with
    | nil => simp at htype
    | cons e erest =>
      simp only [List.map_cons, List.cons.injEq] at htype hframe
      cases hat : a.type with
      | OPEN_FRAME =>
        have hbal1 : checkBalActs arest (a.name :: nstack) = true := by
          simp only [checkBalActs, hat] at hbal
          exact hbal
        have hetype : e.type = SpeedscopeEventType.OPEN_FRAME := by
          rw [htype.1, hat]
          rfl
        simp only [checkBalanced, hetype]
        rw [show (e.frame :: nstack.map φ) = (a.name :: nstack).map φ by
          simp [hframe.1]]
        exact ih erest (a.name :: nstack) htype.2 hframe.2 hbal1
      | CLOSE_FRAME =>
        have hetype : e.type = SpeedscopeEventType.CLOSE_FRAME := by
          rw [htype.1, hat]
          rfl
        cases nstack with
        | nil => simp [checkBalActs, hat] at hbal
        | cons n ns =>
          simp only [checkBalActs, hat, Bool.and_eq_true] at hbal
          have hn : n = a.name := by
            have := hbal.1
            simpa using this
          simp only [List.map_cons, checkBalanced, hetype, Bool.and_eq_true]
          constructor
          · rw [hframe.1, hn]
            simp
          · exact ih erest ns htype.2 hframe.2 hbal.2

theorem ifType_eq (t : GPUProfilerActionType) :
    (if t = .OPEN_FRAME then SpeedscopeEventType.OPEN_FRAME
      else SpeedscopeEventType.CLOSE_FRAME) = actionTypeToSpeedscope t := by
  cases t <;> rfl

/-- The interning pass: the frame table grows append-only and stays
duplicate-free, event types mirror the action types, and every event
references its name by that name's index in the final frame table. -/
theorem internEvents_spec :
    ∀ (evs : List GPUProfilerResolvedEvent) (frames : List String),
      frames.Nodup →
      ((internEvents evs frames).1.Nodup ∧
        ∃ ext, (internEvents evs frames).1 = frames ++ ext) ∧
      (internEvents evs frames).2.map (·.type) =
        evs.map (fun e => actionTypeToSpeedscope e.action.type) ∧
      (internEvents evs frames).2.map (·.frame) =
        evs.map (fun e =>
          List.indexOf e.action.name (internEvents evs frames).1) := by
  intro evs
  induction evs with
  | nil =>
    intro frames h
    exact ⟨⟨h, [], by simp [internEvents]⟩, rfl, rfl⟩
  | cons e rest ih =>
    intro frames h
    by_cases hmem : e.action.name ∈ frames
    · have hg : getOrInsertFrame e.action.name frames =
          (List.indexOf e.action.name frames, frames) := by
        simp [getOrInsertFrame, hmem]
      obtain ⟨⟨h1, ext, h2⟩, h3, h4⟩ := ih frames h
      refine ⟨⟨?_, ext, ?_⟩, ?_, ?_⟩
      · simpa only [internEvents, hg] using h1
      · simpa only [internEvents, hg] using h2
      · simp only [internEvents, hg, List.map_cons]
        rw [h3, ifType_eq]
      · simp only [internEvents, hg, List.map_cons]
        rw [h4]
        simp only [List.cons.injEq, and_true]
        rw [h2, List.indexOf_append_of_mem hmem]
    · have hnodup2 : (frames ++ [e.action.name]).Nodup := by
        simp [List.nodup_append, h, hmem]
      have hg : getOrInsertFrame e.action.name frames =
          (frames.length, frames ++ [e.action.name]) := by
        simp [getOrInsertFrame, hmem]
      obtain ⟨⟨h1, ext, h2⟩, h3, h4⟩ := ih (frames ++ [e.action.name]) hnodup2
      refine ⟨⟨?_, [e.action.name] ++ ext, ?_⟩, ?_, ?_⟩
      · simpa only [internEvents, hg] using h1
      · simp only [internEvents, hg]
        rw [h2, List.append_assoc]
      · simp only [internEvents, hg, List.map_cons]
        rw [h3, ifType_eq]
      · simp only [internEvents, hg, List.map_cons]
        rw [h4]
        simp only [List.cons.injEq, and_true]
        rw [h2, List.append_assoc, List.indexOf_append_of_not_mem hmem]
        simp

theorem accumFrom_length (env : GLEnv) :
    ∀ (base : Int) (l : List GPUProfilerEventPendingTimestamp),
      (accumFrom env base l).length = l.length := by
  intro base l
  induction l generalizing base with
  | nil => rfl
  | cons p rest ih => simp [accumFrom, ih]

/-- C1: for every well-nested sequence of push/pop calls between a
successful `start()` and `stop()`, once every measurement is available and
no disjoint condition occurs, the export succeeds and the profile's event
list is balanced — every open has a matching later close of the same frame
index, LIFO-nested (as decided by the stack checker `checkBalanced`). -/
theorem C1_wellNested_balanced (ops : List ProfilerOp) (h : WellNested ops)
    (s0 : WebGLProfiler) (hext : s0.extAvailable = true)
    (hrun : s0.isRunning = false) (hstack : s0.namedContextStack = [])
    (hdl : ∀ r, s0.rendererInfo = some r → isDenylistedRenderer r = false)
    (env : GLEnv) (hav : ∀ q, env.available q = true)
    (hd : ∀ q, env.disjoint q = false) :
    ∃ sf sg p, WebGLProfiler.session ops s0 = (sf, none) ∧
      exportSpeedscopeProfile env sf = some (sg, Except.ok p) ∧
      checkBalanced p.events [] = true := by
  obtain ⟨sf, hsess, f1, f2, f3⟩ := session_wellNested h s0 hext hrun hstack hdl
  have htw : sf.eventsPendingTimestamps.takeWhile
      (fun p => env.available p.query) = sf.eventsPendingTimestamps :=
    takeWhile_all _ _ fun x _ => hav x.query
  have hloop := resolveLoop_no_disjoint env hd
    sf.eventsPendingTimestamps sf.resolvedEvents
  rw [htw, f2] at hloop
  have hlen : 0 < sf.eventsPendingTimestamps.length := by
    have hl := congrArg List.length f3
    simp only [List.length_map] at hl
    simp [hl]
  have hres : resolveEventsIfPossible env sf =
      ({ sf with
          resolvedEvents := accumFrom env 0 sf.eventsPendingTimestamps
          eventsPendingTimestamps := [] }, none) := by
    simp only [resolveEventsIfPossible, f1, Bool.true_eq_false, if_false]
    rw [f2, hloop]
    simp [hlen, List.drop_length, lastTimestampOf]
  have hne : accumFrom env 0 sf.eventsPendingTimestamps ≠ [] := by
    intro hnil
    have hl2 := congrArg List.length hnil
    rw [accumFrom_length] at hl2
    simp only [List.length_nil] at hl2
    omega
  rcases hgl : (accumFrom env 0 sf.eventsPendingTimestamps).getLast? with _ | lastEv
  · rw [List.getLast?_eq_none_iff] at hgl
    exact absurd hgl hne
  · obtain ⟨⟨hnodup, ext, hextend⟩, htype, hframe⟩ :=
      internEvents_spec (accumFrom env 0 sf.eventsPendingTimestamps) []
        List.nodup_nil
    refine ⟨sf,
      { sf with
          resolvedEvents := accumFrom env 0 sf.eventsPendingTimestamps
          eventsPendingTimestamps := [] },
      ⟨(internEvents (accumFrom env 0 sf.eventsPendingTimestamps) []).1, 0,
        lastEv.timestamp,
        (internEvents (accumFrom env 0 sf.eventsPendingTimestamps) []).2⟩,
      hsess, ?_, ?_⟩
    · simp only [exportSpeedscopeProfile, hres, List.isEmpty_nil, if_true]
      simp only [toSpeedscopeProfile, hgl]
    · have hacts : (accumFrom env 0 sf.eventsPendingTimestamps).map (·.action) =
          ⟨.OPEN_FRAME, "profile"⟩ ::
            (ops.map ProfilerOp.action ++ [⟨.CLOSE_FRAME, "profile"⟩]) := by
        rw [accumFrom_map_action, f3]
      have hbal : checkBalActs
          ((accumFrom env 0 sf.eventsPendingTimestamps).map (·.action)) [] =
          true := by
        rw [hacts]
        show checkBalActs
          (ops.map ProfilerOp.action ++ [⟨.CLOSE_FRAME, "profile"⟩])
          ["profile"] = true
        rw [wellNested_checkBalActs h]
        decide
      have htype2 : (internEvents (accumFrom env 0
          sf.eventsPendingTimestamps) []).2.map (·.type) =
          ((accumFrom env 0 sf.eventsPendingTimestamps).map (·.action)).map
            (fun a => actionTypeToSpeedscope a.type) := by
        rw [htype, List.map_map]
        rfl
      have hframe2 : (internEvents (accumFrom env 0
          sf.eventsPendingTimestamps) []).2.map (·.frame) =
          ((accumFrom env 0 sf.eventsPendingTimestamps).map (·.action)).map
            (fun a => List.indexOf a.name
              (internEvents (accumFrom env 0 sf.eventsPendingTimestamps) []).1) := by
        rw [hframe, List.map_map]
        rfl
      exact checkBalanced_transfer
        (fun nm => List.indexOf nm
          (internEvents (accumFrom env 0 sf.eventsPendingTimestamps) []).1)
        _ _ [] htype2 hframe2 hbal

/-- C1 witness: the well-nested sequence push "a"; pop "a" from a fresh
profiler, exported under unit durations, yields a balanced event list. -/
theorem C1_witness :
    ∃ sf sg p, WebGLProfiler.session [.push "a", .pop "a"]
        (WebGLProfiler.mk0 true none) = (sf, none) ∧
      exportSpeedscopeProfile envOnes sf = some (sg, Except.ok p) ∧
      checkBalanced p.events [] = true :=
  C1_wellNested_balanced [.push "a", .pop "a"]
    (WellNested.wrap "a" WellNested.nil) (WebGLProfiler.mk0 true none)
    rfl rfl rfl (fun r hr => by simp [WebGLProfiler.mk0] at hr) envOnes
    (fun _ => rfl) (fun _ => rfl)
